import Mathlib

/-!
Verification of the starknet-tokenkit-indexer delivery layer.

This file gives a shallow embedding of the parts of the repository that the
claims talk about:

* the hex normalization helper removeLeadingZeros and the uint256
  reconstruction converUint256ToNum shared, with one variation, by
  tokenkit_indexer.ts and transfers_indexer.ts;
* the webhook sink retry loop sendToWebhook and its header construction
  (lib/webhook plugin);
* the Redis checkpoint store persistBlock / getLastProcessedBlock and the
  resume-height computation of its run-before hook (lib/redis plugin);
* the Kafka sink chunking and per-chunk retry of sendToKafka
  (lib/kafka_producer.ts);
* the WebSocket sink retry loop sendToWebSocket and the per-message hooks of
  the three sinks (lib/websocket plugin, lib/kafka_producer.ts,
  lib/webhook plugin).

Asynchronous I/O is modelled by oracles: a function from the attempt index to
the outcome the network would produce on that attempt.  Machine integers of
the JavaScript source are modelled as Nat with explicit truncation where the
source can overflow.
-/

/-! ## Hex normalization (tokenkit_indexer.ts 55-59, transfers_indexer.ts 56-60)

The source is
  hexString.toLowerCase().replace(/^0x0+/, "0x")
acting on JavaScript strings.  Strings are modelled as lists of characters;
toLowerCase is modelled on the ASCII range, which covers every character of a
hex string. -/

/-- ASCII lower-casing of one character, as String.prototype.toLowerCase acts
on the characters appearing in hex strings. -/
def charToLower (c : Char) : Char :=
  if 65 ≤ c.toNat ∧ c.toNat ≤ 90 then Char.ofNat (c.toNat + 32) else c

/-- Model of hexString.toLowerCase(). -/
def strToLower (s : List Char) : List Char := s.map charToLower

/-- Model of .replace(/^0x0+/, "0x"): when the string begins with 0x followed
by at least one 0, the maximal run of zeros after the prefix is removed;
otherwise the string is unchanged. -/
def stripZerosAfterHexMark : List Char → List Char
  | '0' :: 'x' :: rest =>
    if rest.head? = some '0' then
      '0' :: 'x' :: rest.dropWhile (fun c => c == '0')
    else
      '0' :: 'x' :: rest
  | t => t

/-- Model of removeLeadingZeros from tokenkit_indexer.ts and
transfers_indexer.ts: lower-case the string, then strip the zeros directly
after the 0x mark. -/
def removeLeadingZeros (s : List Char) : List Char :=
  stripZerosAfterHexMark (strToLower s)

/-! ## uint256 reconstruction (tokenkit_indexer.ts 45-52, transfers_indexer.ts 45-52)

Both indexers build a CairoUint256 from a (low, high) limb pair and call
toBigInt, which yields low + high * 2^128 for validated limbs.  The transfers
indexer then renders the BigNumber as a string, which preserves the exact
integer value; we model the value the string denotes.  The tokenkit indexer
instead calls BigNumber.toNumber(), which coerces the value to an IEEE-754
double; for a non-negative integer below 2^1024 that coercion is
round-to-nearest-even at 53 significant bits, modelled by float64OfNat. -/

/-- CairoUint256.toBigInt semantics on validated limbs. -/
def uint256ToBigInt (low high : Nat) : Nat := low + high * 2 ^ 128

/-- Number of halvings needed to bring n under 2^53 (fuel-driven so that the
kernel can evaluate it). -/
def f64ExpGo : Nat → Nat → Nat
  | 0, _ => 0
  | fuel + 1, n => if n < 2 ^ 53 then 0 else f64ExpGo fuel (n / 2) + 1

/-- Value of the IEEE-754 double nearest to the natural number n
(round-to-nearest, ties to even), for n below the double overflow threshold.
This models coercing a JavaScript arbitrary-precision value to a number. -/
def float64OfNat (n : Nat) : Nat :=
  if n < 2 ^ 53 then n
  else
    let e := f64ExpGo 320 n
    let q := n / 2 ^ e
    let r := n % 2 ^ e
    let half := 2 ^ (e - 1)
    if half < r ∨ (r = half ∧ q % 2 = 1) then (q + 1) * 2 ^ e else q * 2 ^ e

namespace Tokenkit

/-- Model of converUint256ToNum in tokenkit_indexer.ts:
BigNumber(uint.toBigInt()).toNumber() — the exact value is coerced to a
64-bit float. -/
def converUint256ToNum (low high : Nat) : Nat :=
  float64OfNat (uint256ToBigInt low high)

end Tokenkit

namespace Transfers

/-- Model of converUint256ToNum in transfers_indexer.ts:
BigNumber(uint.toBigInt()).toString() — we track the exact integer value the
produced decimal string denotes. -/
def converUint256ToNum (low high : Nat) : Nat :=
  uint256ToBigInt low high

end Transfers

/-! ## Webhook sink (lib/webhook plugin, src/unnamed/part_000 500-555)

The retry loop is
  while (attempt < maxAttempts && !success) { fetch; on failure attempt++
  and sleep delayMs when attempt < maxAttempts }
The network is an oracle resp : Nat → Bool giving, for each value of the
attempt counter at request time, whether the POST returns a 2xx response. -/

/-- Trace of one sendToWebhook call: the returned success flag, the number of
HTTP requests issued, and the number of inter-attempt delays slept. -/
structure WebhookSendTrace where
  success : Bool
  requests : Nat
  sleeps : Nat
deriving DecidableEq

/-- Body of the webhook retry loop, with fuel maxAttempts - attempt.  On a 2xx
response the loop stops with success; on a failure the attempt counter is
bumped and, when attempts remain, one delay is slept. -/
def webhookAttemptLoop (resp : Nat → Bool) (maxAttempts : Nat) :
    Nat → Nat → WebhookSendTrace
  | _, 0 => { success := false, requests := 0, sleeps := 0 }
  | attempt, fuel + 1 =>
    if resp attempt then
      { success := true, requests := 1, sleeps := 0 }
    else
      let rest := webhookAttemptLoop resp maxAttempts (attempt + 1) fuel
      { success := rest.success
        requests := rest.requests + 1
        sleeps := rest.sleeps + (if attempt + 1 < maxAttempts then 1 else 0) }

/-- Model of sendToWebhook: run the retry loop from attempt 0. -/
def sendToWebhook (resp : Nat → Bool) (maxAttempts : Nat) : WebhookSendTrace :=
  webhookAttemptLoop resp maxAttempts 0 maxAttempts

/-- JavaScript object spread for string-keyed records: every key of base is
kept (its value replaced when extra also binds it), then the keys of extra
that are new are appended in order. -/
def jsSpread (base extra : List (String × String)) : List (String × String) :=
  base.map (fun p =>
    match extra.lookup p.1 with
    | some v => (p.1, v)
    | none => p)
  ++ extra.filter (fun p => (base.lookup p.1).isNone)

/-- Headers of the webhook POST, from part_000 line 514:
the literal starts with Content-Type: application/json and then spreads the
caller-supplied headers over it. -/
def webhookRequestHeaders (callerHeaders : List (String × String)) :
    List (String × String) :=
  jsSpread [("Content-Type", "application/json")] callerHeaders

/-! ## Redis checkpoint store (lib/redis plugin, src/unnamed/part_000 114-156, 238-245)

The raw ioredis calls either return a value or throw; both possibilities are
an oracle recorded in the client state.  Number(lastBlock) is an arbitrary
total conversion toNumber, as the JavaScript Number function never throws. -/

/-- Outcome of one raw client call: the returned value, or a thrown error. -/
inductive JsResult (α : Type) where
  | ok (val : α)
  | thrown (msg : String)
deriving DecidableEq

/-- State of the static Redis client: what get(redisKey) and
set(redisKey, v) would do right now. -/
structure RedisClientState where
  getResult : JsResult (Option String)
  setResult : JsResult Unit
deriving DecidableEq

/-- Model of persistBlock (part_000 114-128): with no client it logs and
returns; a thrown set error is caught, logged and swallowed.  The Except
error case is what a thrown JavaScript exception would be; persistBlock never
produces it. -/
def persistBlock (client : Option RedisClientState) (blockNumber : String) :
    Except String Unit :=
  match client with
  | none => Except.ok ()
  | some c =>
    match c.setResult with
    | JsResult.ok _ => Except.ok ()
    | JsResult.thrown _ => Except.ok ()

/-- Model of getLastProcessedBlock (part_000 137-156): with no client the
result is null; a thrown get error is caught and yields null; an absent key
or an empty stored string falls through to the final return null; otherwise
the stored string is converted with Number. -/
def getLastProcessedBlock (client : Option RedisClientState)
    (toNumber : String → Int) : Except String (Option Int) :=
  match client with
  | none => Except.ok none
  | some c =>
    match c.getResult with
    | JsResult.thrown _ => Except.ok none
    | JsResult.ok none => Except.ok none
    | JsResult.ok (some s) =>
      if s ≠ "" then Except.ok (some (toNumber s)) else Except.ok none

/-- Boolean check that an Except value is not an error. -/
def exceptIsOk : Except ε α → Bool
  | Except.ok _ => true
  | Except.error _ => false

/-- Model of the resume-height computation of the redisPlugin run-before hook
(part_000 238-245): when getLastProcessedBlock yields a height the starting
block becomes that height plus one, otherwise the configured starting block
is left unchanged. -/
def redisResumeStartingBlock (client : Option RedisClientState)
    (toNumber : String → Int) (configuredStartingBlock : Int) :
    Except String Int :=
  match getLastProcessedBlock client toNumber with
  | Except.error e => Except.error e
  | Except.ok (some lastBlock) => Except.ok (lastBlock + 1)
  | Except.ok none => Except.ok configuredStartingBlock

/-! ## Kafka sink chunking (lib/kafka_producer.ts 228-331)

A payload is a record with blockNumber, timestamp and transfers fields plus
any remaining fields, which the model keeps as an opaque association list so
that the frame condition of the object spread can be stated. -/

/-- Payload handed to sendToKafka, as produced by the transform functions. -/
structure KafkaPayload (α : Type) where
  blockNumber : String
  timestamp : String
  transfers : List α
  rest : List (String × String)
deriving DecidableEq

/-- Reassembly metadata attached to each chunk (kafka_producer.ts 266-270). -/
structure ChunkInfo where
  chunkIndex : Nat
  totalChunks : Nat
  originalCount : Nat
deriving DecidableEq

/-- Value object of one chunk message: the original payload with transfers
replaced by the chunk and chunkInfo added (kafka_producer.ts 263-271). -/
structure ChunkedPayload (α : Type) where
  blockNumber : String
  timestamp : String
  transfers : List α
  rest : List (String × String)
  chunkInfo : ChunkInfo
deriving DecidableEq

/-- One Kafka ProducerRecord message for a chunk (kafka_producer.ts 277-292). -/
structure KafkaMessage (α : Type) where
  topic : String
  key : Option String
  value : ChunkedPayload α
  headers : List (String × String)
deriving DecidableEq

/-- Slicing loop of kafka_producer.ts 252-255:
for (i = 0; i < transfers.length; i += chunkSize) push(slice(i, i+chunkSize)).
Fuel-driven: the fuel is an upper bound on the list length. -/
def transferChunksGo (chunkSize : Nat) : Nat → List α → List (List α)
  | _, [] => []
  | 0, _ :: _ => []
  | fuel + 1, x :: xs =>
    List.take chunkSize (x :: xs) ::
      transferChunksGo chunkSize fuel (List.drop chunkSize (x :: xs))

/-- The list of transfer chunks built by sendToKafka. -/
def transferChunks (transfers : List α) (chunkSize : Nat) : List (List α) :=
  transferChunksGo chunkSize transfers.length transfers

/-- Body of the chunk loop of sendToKafka at index i (kafka_producer.ts
261-292): the message value spreads the payload with the slice of chunk i and
its chunkInfo; the key is the composite blockNumber-chunk-i when blockNumber
is non-empty, and the chunk headers are attached. -/
def chunkMessageAt (data : KafkaPayload α) (topic : String) (chunkSize : Nat)
    (i : Nat) : KafkaMessage α :=
  let chunks := transferChunks data.transfers chunkSize
  { topic := topic
    key :=
      if data.blockNumber ≠ "" then
        some (data.blockNumber ++ "-chunk-" ++ toString i)
      else none
    value :=
      { blockNumber := data.blockNumber
        timestamp := data.timestamp
        transfers := chunks.getD i []
        rest := data.rest
        chunkInfo :=
          { chunkIndex := i
            totalChunks := chunks.length
            originalCount := data.transfers.length } }
    headers :=
      [("content-type", "application/json"),
       ("source", "apibara-indexer"),
       ("chunk-index", toString i),
       ("total-chunks", toString chunks.length),
       ("original-block", data.blockNumber)] }

/-- Chunk messages built on the chunking path of sendToKafka
(kafka_producer.ts 248-292, taken when transfers.length > chunkSize): one
message per chunk, in chunk order. -/
def buildChunkMessages (data : KafkaPayload α) (topic : String)
    (chunkSize : Nat) : List (KafkaMessage α) :=
  (List.range (transferChunks data.transfers chunkSize).length).map
    (chunkMessageAt data topic chunkSize)

/-- Per-chunk retry loop of kafka_producer.ts 297-315: attempts are numbered
from 1; the oracle says whether producer.send of this chunk succeeds on a
given attempt.  Returns the chunk success flag and the number of send calls
made. -/
def sendChunkAttempts (ok : Nat → Bool) : Nat → Nat → Bool × Nat
  | _, 0 => (false, 0)
  | attempt, fuel + 1 =>
    if ok attempt then (true, 1)
    else
      let rest := sendChunkAttempts ok (attempt + 1) fuel
      (rest.1, rest.2 + 1)

/-- Retry wrapper for one chunk: up to maxAttempts send calls starting at
attempt 1. -/
def sendChunkWithRetry (ok : Nat → Bool) (maxAttempts : Nat) : Bool × Nat :=
  sendChunkAttempts ok 1 maxAttempts

/-- Result of the chunked send: the per-chunk traces in order and the overall
allSuccessful flag returned by sendToKafka. -/
structure ChunkedSendResult where
  perChunk : List (Bool × Nat)
  success : Bool
deriving DecidableEq

/-- Chunk loop of kafka_producer.ts 258-331: every chunk is tried in order,
with its own retry budget; allSuccessful is cleared when a chunk exhausts its
attempts but the loop continues to the next chunk. -/
def sendChunkedPayload (ok : Nat → Nat → Bool) (maxAttempts numChunks : Nat) :
    ChunkedSendResult :=
  let results :=
    (List.range numChunks).map (fun i => sendChunkWithRetry (ok i) maxAttempts)
  { perChunk := results, success := results.all (fun r => r.1) }

/-- Chunked send of a payload: one retried send per built chunk message. -/
def sendToKafkaChunked (data : KafkaPayload α) (topic : String)
    (chunkSize maxAttempts : Nat) (ok : Nat → Nat → Bool) : ChunkedSendResult :=
  sendChunkedPayload ok maxAttempts (buildChunkMessages data topic chunkSize).length

/-! ## WebSocket sink (lib/websocket plugin, kafka_producer.ts 721-764 and 828-856)

Each iteration of the send loop sees the connection either open or not
(oracle isOpen) and, when open, the send call either returns or throws
(oracle sendOk); every non-successful iteration bumps the attempts counter. -/

/-- Result of sendToWebSocket. -/
structure WsSendResult where
  success : Bool
  error : Option String
deriving DecidableEq

/-- Send loop of sendToWebSocket (websocket plugin 721-758), with fuel
maxAttempts - attempts: a closed connection or a throwing send bumps the
counter and retries; a successful send returns immediately. -/
def wsSendLoop (isOpen sendOk : Nat → Bool) : Nat → Nat → Bool
  | _, 0 => false
  | attempts, fuel + 1 =>
    if isOpen attempts then
      if sendOk attempts then true
      else wsSendLoop isOpen sendOk (attempts + 1) fuel
    else wsSendLoop isOpen sendOk (attempts + 1) fuel

/-- Model of sendToWebSocket: success when some iteration within the attempt
budget sends, otherwise a failure result carrying the last error. -/
def sendToWebSocket (isOpen sendOk : Nat → Bool) (maxAttempts : Nat) :
    WsSendResult :=
  if wsSendLoop isOpen sendOk 0 maxAttempts then
    { success := true, error := none }
  else
    { success := false, error := some "WebSocket not connected" }

/-- Outcome of one per-message hook invocation: it either completes normally
or propagates a thrown error to the caller. -/
inductive HookOutcome where
  | completed
  | threw (msg : String)
deriving DecidableEq

/-- Per-message hook of the websocket plugin (kafka_producer.ts 828-856): a
non-success send result is logged and then escalated with throw new Error. -/
def websocketMessageHook (blockNumber : String) (result : WsSendResult) :
    HookOutcome :=
  if result.success then HookOutcome.completed
  else
    HookOutcome.threw
      ("WebSocket could not process block: " ++ blockNumber)

/-- Per-message hook of the kafka plugin (kafka_producer.ts 404-425): a
non-success send result is only logged; the hook returns normally. -/
def kafkaMessageHook (blockNumber : String) (result : ChunkedSendResult) :
    HookOutcome :=
  HookOutcome.completed

/-- Per-message hook of the webhook plugin (part_000 469-490): a non-success
send result is only logged; the hook returns normally. -/
def webhookMessageHook (blockNumber : String) (result : WebhookSendTrace) :
    HookOutcome :=
  HookOutcome.completed

/-- Concrete payload with 450 transfers, used to instantiate the chunking
theorems. -/
def samplePayload : KafkaPayload Unit :=
  { blockNumber := "900100"
    timestamp := "2024-05-01T00:00:00Z"
    transfers := List.replicate 450 ()
    rest := [("network", "mainnet")] }

/-! ## Lemmas about the hex normalization -/

theorem charToLower_zero : charToLower '0' = '0' := by decide

theorem charToLower_x : charToLower 'x' = 'x' := by decide

theorem charToLower_upperX : charToLower 'X' = 'x' := by decide

theorem dropWhile_zero_replicate (m : Nat) (u : List Char) :
    (List.replicate m '0' ++ u).dropWhile (fun c => c == '0')
      = u.dropWhile (fun c => c == '0') := by
  induction m with
  | zero => rfl
  | succ k ih =>
    rw [List.replicate_succ, List.cons_append, List.dropWhile_cons]
    simpa using ih

theorem strToLower_hex_shape (x : Char) (hx : x = 'x' ∨ x = 'X')
    (m : Nat) (t : List Char) :
    strToLower ('0' :: x :: (List.replicate m '0' ++ t))
      = '0' :: 'x' :: (List.replicate m '0' ++ strToLower t) := by
  rcases hx with h | h <;> subst h <;>
    simp [strToLower, List.map_append, List.map_replicate,
      charToLower_zero, charToLower_x, charToLower_upperX]

theorem stripZeros_canon (m : Nat) (v : List Char) :
    stripZerosAfterHexMark ('0' :: 'x' :: (List.replicate m '0' ++ v))
      = '0' :: 'x' :: v.dropWhile (fun c => c == '0') := by
  cases m with
  | zero =>
    show stripZerosAfterHexMark ('0' :: 'x' :: v) = _
    cases v with
    | nil => rfl
    | cons c cs =>
      by_cases hc : c = '0'
      · subst hc
        show (if (('0' : Char) :: cs).head? = some '0' then
            '0' :: 'x' :: (('0' : Char) :: cs).dropWhile (fun c => c == '0')
          else '0' :: 'x' :: ('0' : Char) :: cs) = _
        rw [if_pos (show (('0' : Char) :: cs).head? = some '0' from rfl),
          List.dropWhile_cons]
      · show (if (c :: cs).head? = some '0' then
            '0' :: 'x' :: (c :: cs).dropWhile (fun c => c == '0')
          else '0' :: 'x' :: c :: cs) = _
        rw [if_neg (by simp [hc]), List.dropWhile_cons, if_neg (by simp [hc])]
  | succ k =>
    have h1 : List.replicate (k + 1) '0' ++ v = '0' :: (List.replicate k '0' ++ v) := by
      rw [List.replicate_succ, List.cons_append]
    rw [h1]
    show (if (('0' : Char) :: (List.replicate k '0' ++ v)).head? = some '0' then
        '0' :: 'x' :: (('0' : Char) :: (List.replicate k '0' ++ v)).dropWhile (fun c => c == '0')
      else '0' :: 'x' :: ('0' : Char) :: (List.replicate k '0' ++ v)) = _
    rw [if_pos (show (('0' : Char) :: (List.replicate k '0' ++ v)).head? = some '0' from rfl),
      ← h1, dropWhile_zero_replicate]

/-- C3: hex strings that denote the same digit sequence and differ only in
the count of leading zeros after the 0x prefix and in letter case are mapped
by removeLeadingZeros to the same string, so the selector comparison of the
decoders reports them equal. -/
theorem removeLeadingZeros_normalizes (m n : Nat) (x₁ x₂ : Char)
    (t₁ t₂ : List Char)
    (hx₁ : x₁ = 'x' ∨ x₁ = 'X') (hx₂ : x₂ = 'x' ∨ x₂ = 'X')
    (ht : strToLower t₁ = strToLower t₂) :
    removeLeadingZeros ('0' :: x₁ :: (List.replicate m '0' ++ t₁))
      = removeLeadingZeros ('0' :: x₂ :: (List.replicate n '0' ++ t₂)) := by
  unfold removeLeadingZeros
  rw [strToLower_hex_shape x₁ hx₁, strToLower_hex_shape x₂ hx₂,
    stripZeros_canon, stripZeros_canon, ht]

/-- Witness for C3: 0X00A5 and 0xa5 normalize to the same string. -/
theorem removeLeadingZeros_normalizes_witness :
    removeLeadingZeros ('0' :: 'X' :: (List.replicate 2 '0' ++ ['A', '5']))
      = removeLeadingZeros ('0' :: 'x' :: (List.replicate 0 '0' ++ ['a', '5'])) :=
  removeLeadingZeros_normalizes 2 0 'X' 'x' ['A', '5'] ['a', '5']
    (Or.inr rfl) (Or.inl rfl) (by decide)

/-! ## Theorems about the uint256 reconstruction -/

/-- C4 counterexample: the tokenkit decoder coerces the reconstructed value
to a 64-bit float, and at the limb pair (2^53 + 1, 0) the produced number is
2^53, not the exact reconstructed integer 2^53 + 1. -/
theorem tokenkit_uint256_precision_counterexample :
    Tokenkit.converUint256ToNum (2 ^ 53 + 1) 0 ≠ uint256ToBigInt (2 ^ 53 + 1) 0 := by
  decide

/-- C4 amended: for 128-bit limb pairs, the transfers decoder reconstruction
is exactly low + high * 2^128 and distinct limb pairs never collide; the
tokenkit decoder additionally coerces the value to a 64-bit float number,
which agrees with the exact reconstruction only below 2^53. -/
theorem uint256_reconstruction_amended (low high low₂ high₂ : Nat)
    (hl : low < 2 ^ 128) (hh : high < 2 ^ 128)
    (hl₂ : low₂ < 2 ^ 128) (hh₂ : high₂ < 2 ^ 128) :
    Transfers.converUint256ToNum low high = low + high * 2 ^ 128
    ∧ (Transfers.converUint256ToNum low high = Transfers.converUint256ToNum low₂ high₂ →
        low = low₂ ∧ high = high₂)
    ∧ (low + high * 2 ^ 128 < 2 ^ 53 →
        Tokenkit.converUint256ToNum low high = Transfers.converUint256ToNum low high) := by
  refine ⟨rfl, ?_, ?_⟩
  · intro h
    have h' : low + high * 2 ^ 128 = low₂ + high₂ * 2 ^ 128 := h
    have hc : (2 : Nat) ^ 128 = 340282366920938463463374607431768211456 := by norm_num
    rw [hc] at h' hl hh hl₂ hh₂
    omega
  · intro h
    show float64OfNat (uint256ToBigInt low high) = uint256ToBigInt low high
    have h' : uint256ToBigInt low high < 2 ^ 53 := h
    rw [float64OfNat, if_pos h']

/-- Witness for C4 amended: instantiation at the limb pairs (7, 1) and
(9, 2). -/
theorem uint256_reconstruction_amended_witness :
    Transfers.converUint256ToNum 7 1 = 7 + 1 * 2 ^ 128
    ∧ (Transfers.converUint256ToNum 7 1 = Transfers.converUint256ToNum 9 2 →
        7 = 9 ∧ 1 = 2)
    ∧ (7 + 1 * 2 ^ 128 < 2 ^ 53 →
        Tokenkit.converUint256ToNum 7 1 = Transfers.converUint256ToNum 7 1) :=
  uint256_reconstruction_amended 7 1 9 2 (by norm_num) (by norm_num)
    (by norm_num) (by norm_num)

/-! ## Theorems about the webhook headers -/

/-- C5 counterexample: the caller headers are spread after the injected
default, so a caller-supplied Content-Type of text/plain reaches the POST,
and the request does not carry application/json. -/
theorem webhook_contentType_counterexample :
    (webhookRequestHeaders [("Content-Type", "text/plain")]).lookup "Content-Type"
      ≠ some "application/json" := by decide

/-- C5 amended: the webhook POST headers carry
Content-Type: application/json whenever the caller header map has no
Content-Type entry; a caller-supplied Content-Type entry overrides the
injected default, because the caller headers are spread after it. -/
theorem webhook_contentType_default_spec (callerHeaders : List (String × String)) :
    (webhookRequestHeaders callerHeaders).lookup "Content-Type"
      = some ((callerHeaders.lookup "Content-Type").getD "application/json") := by
  unfold webhookRequestHeaders jsSpread
  cases h : callerHeaders.lookup "Content-Type" with
  | none => simp [h, List.lookup]
  | some v => simp [h, List.lookup]

/-! ## Theorems about the checkpoint store -/

/-- C9: the checkpoint store operations never throw to their caller; for
every client state persistBlock returns normally, getLastProcessedBlock
returns normally, and it returns null when the client is unavailable, the
key is absent, or the raw read throws. -/
theorem checkpoint_store_never_throws (client : Option RedisClientState)
    (blockNumber : String) (toNumber : String → Int)
    (c : RedisClientState) (m : String) :
    exceptIsOk (persistBlock client blockNumber) = true
    ∧ exceptIsOk (getLastProcessedBlock client toNumber) = true
    ∧ getLastProcessedBlock none toNumber = Except.ok none
    ∧ getLastProcessedBlock (some { c with getResult := JsResult.ok none }) toNumber
        = Except.ok none
    ∧ getLastProcessedBlock (some { c with getResult := JsResult.thrown m }) toNumber
        = Except.ok none := by
  refine ⟨?_, ?_, rfl, rfl, rfl⟩
  · cases client with
    | none => rfl
    | some c' => cases hc : c'.setResult <;> simp [persistBlock, hc, exceptIsOk]
  · cases client with
    | none => rfl
    | some c' =>
      cases hc : c'.getResult with
      | thrown m' => simp [getLastProcessedBlock, hc, exceptIsOk]
      | ok o =>
        cases o with
        | none => simp [getLastProcessedBlock, hc, exceptIsOk]
        | some s =>
          by_cases hs : s = ""
          · simp [getLastProcessedBlock, hc, hs, exceptIsOk]
          · simp [getLastProcessedBlock, hc, hs, exceptIsOk]

/-- C6: when the checkpoint store yields a prior height N the resume height
is exactly N + 1, and when it yields nothing the configured starting block
is used unchanged. -/
theorem resume_height_spec (client₁ client₂ : Option RedisClientState)
    (toNumber : String → Int) (configured N : Int)
    (h₁ : getLastProcessedBlock client₁ toNumber = Except.ok (some N))
    (h₂ : getLastProcessedBlock client₂ toNumber = Except.ok none) :
    redisResumeStartingBlock client₁ toNumber configured = Except.ok (N + 1)
    ∧ redisResumeStartingBlock client₂ toNumber configured = Except.ok configured := by
  refine ⟨?_, ?_⟩
  · unfold redisResumeStartingBlock
    rw [h₁]
  · unfold redisResumeStartingBlock
    rw [h₂]

/-- Witness for C6: a client holding the string 42 resumes at 43; a missing
client leaves the configured starting block 100 unchanged. -/
theorem resume_height_spec_witness :
    redisResumeStartingBlock
        (some { getResult := JsResult.ok (some "42"), setResult := JsResult.ok () })
        (fun _ => (42 : Int)) 100 = Except.ok (42 + 1)
    ∧ redisResumeStartingBlock none (fun _ => (42 : Int)) 100 = Except.ok 100 :=
  resume_height_spec
    (some { getResult := JsResult.ok (some "42"), setResult := JsResult.ok () })
    none (fun _ => (42 : Int)) 100 42 rfl rfl

/-! ## Lemmas about the webhook retry loop -/

theorem webhookAttemptLoop_succeeds (resp : Nat → Bool) (M : Nat) :
    ∀ f a j, a + f = M → j < f →
      (∀ i, i < j → resp (a + i) = false) → resp (a + j) = true →
      webhookAttemptLoop resp M a f
        = { success := true, requests := j + 1, sleeps := j } := by
  intro f
  induction f with
  | zero => intro a j _ hj; exact absurd hj (Nat.not_lt_zero j)
  | succ f ih =>
    intro a j hM hj hfail hsucc
    cases j with
    | zero =>
      have h0 : resp a = true := by simpa using hsucc
      simp [webhookAttemptLoop, h0]
    | succ j' =>
      have h0 : resp a = false := by simpa using hfail 0 (Nat.succ_pos j')
      have hrec := ih (a + 1) j' (by omega) (by omega)
        (fun i hi => by
          have h := hfail (i + 1) (by omega)
          have e : a + (i + 1) = a + 1 + i := by omega
          rwa [e] at h)
        (by
          have e : a + (j' + 1) = a + 1 + j' := by omega
          rw [← e]; exact hsucc)
      have hlt : a + 1 < M := by omega
      simp [webhookAttemptLoop, h0, hrec, hlt]

theorem webhookAttemptLoop_fail_step (resp : Nat → Bool) (M a f : Nat)
    (h0 : resp a = false) :
    webhookAttemptLoop resp M a (f + 1)
      = { success := (webhookAttemptLoop resp M (a + 1) f).success
          requests := (webhookAttemptLoop resp M (a + 1) f).requests + 1
          sleeps := (webhookAttemptLoop resp M (a + 1) f).sleeps
            + (if a + 1 < M then 1 else 0) } := by
  simp only [webhookAttemptLoop, h0]
  simp

theorem webhookAttemptLoop_exhausts (resp : Nat → Bool) (M : Nat) :
    ∀ f a, a + f = M → (∀ i, i < f → resp (a + i) = false) →
      webhookAttemptLoop resp M a f
        = { success := false, requests := f, sleeps := f - 1 } := by
  intro f
  induction f with
  | zero => intro a _ _; rfl
  | succ f ih =>
    intro a hM hfail
    have h0 : resp a = false := by simpa using hfail 0 (Nat.succ_pos f)
    have hrec := ih (a + 1) (by omega) (fun i hi => by
      have h := hfail (i + 1) (by omega)
      have e : a + (i + 1) = a + 1 + i := by omega
      rwa [e] at h)
    cases f with
    | zero =>
      have hnl : ¬ (a + 1 < M) := by omega
      rw [webhookAttemptLoop_fail_step resp M a 0 h0, hrec]
      simp [hnl]
    | succ f' =>
      have hlt : a + 1 < M := by omega
      rw [webhookAttemptLoop_fail_step resp M a (f' + 1) h0, hrec]
      simp [hlt]

/-- C2: for the webhook retry with ceiling maxAttempts, a target that fails
on the first k - 1 attempts and succeeds on attempt k (k within the ceiling)
makes send return success after exactly k requests and k - 1 inter-attempt
delays, while a target that fails on every attempt makes send return failure
after exactly maxAttempts requests. -/
theorem sendToWebhook_retry_spec (resp respAllFail : Nat → Bool)
    (maxAttempts k : Nat) (hk : 1 ≤ k) (hkm : k ≤ maxAttempts)
    (hfail : ∀ i, i < k - 1 → resp i = false)
    (hsucc : resp (k - 1) = true)
    (hall : ∀ i, i < maxAttempts → respAllFail i = false) :
    sendToWebhook resp maxAttempts
      = { success := true, requests := k, sleeps := k - 1 }
    ∧ sendToWebhook respAllFail maxAttempts
      = { success := false, requests := maxAttempts, sleeps := maxAttempts - 1 } := by
  constructor
  · have h := webhookAttemptLoop_succeeds resp maxAttempts maxAttempts 0 (k - 1)
      (by omega) (by omega) (fun i hi => by simpa using hfail i hi)
      (by simpa using hsucc)
    have hk1 : k - 1 + 1 = k := by omega
    show webhookAttemptLoop resp maxAttempts 0 maxAttempts = _
    rw [h, hk1]
  · exact webhookAttemptLoop_exhausts respAllFail maxAttempts maxAttempts 0
      (by omega) (fun i hi => by simpa using hall i hi)

/-- Witness for C2: a target failing twice then succeeding on the third of
three attempts, and a target failing on all three attempts. -/
theorem sendToWebhook_retry_witness :
    sendToWebhook (fun i => decide (i = 2)) 3
      = { success := true, requests := 3, sleeps := 2 }
    ∧ sendToWebhook (fun _ => false) 3
      = { success := false, requests := 3, sleeps := 2 } :=
  sendToWebhook_retry_spec (fun i => decide (i = 2)) (fun _ => false) 3 3
    (by decide) (by decide) (by decide) (by decide) (by decide)

/-! ## Lemmas about the chunk slicing -/

theorem transferChunksGo_join (k : Nat) (hk : 1 ≤ k) :
    ∀ f (xs : List α), xs.length ≤ f → (transferChunksGo k f xs).join = xs := by
  intro f
  induction f with
  | zero =>
    intro xs h1
    have hx : xs = [] := List.length_eq_zero.mp (Nat.le_zero.mp h1)
    subst hx; rfl
  | succ f ih =>
    intro xs h1
    cases xs with
    | nil => rfl
    | cons x l =>
      have hlen : (List.drop k (x :: l)).length ≤ f := by
        rw [List.length_drop, List.length_cons]
        simp only [List.length_cons] at h1; omega
      show (List.take k (x :: l) :: transferChunksGo k f (List.drop k (x :: l))).join
        = x :: l
      rw [show (List.take k (x :: l) :: transferChunksGo k f (List.drop k (x :: l))).join
          = List.take k (x :: l) ++ (transferChunksGo k f (List.drop k (x :: l))).join from rfl]
      rw [ih (List.drop k (x :: l)) hlen, List.take_append_drop]

theorem transferChunksGo_length (k : Nat) (hk : 1 ≤ k) :
    ∀ f (xs : List α), xs.length ≤ f →
      (transferChunksGo k f xs).length = (xs.length + k - 1) / k := by
  intro f
  induction f with
  | zero =>
    intro xs h1
    have hx : xs = [] := List.length_eq_zero.mp (Nat.le_zero.mp h1)
    subst hx
    show 0 = (0 + k - 1) / k
    rw [Nat.zero_add]
    exact (Nat.div_eq_of_lt (by omega)).symm
  | succ f ih =>
    intro xs h1
    cases xs with
    | nil =>
      show 0 = (0 + k - 1) / k
      rw [Nat.zero_add]
      exact (Nat.div_eq_of_lt (by omega)).symm
    | cons x l =>
      have hlen : (List.drop k (x :: l)).length ≤ f := by
        rw [List.length_drop, List.length_cons]
        simp only [List.length_cons] at h1; omega
      show (List.take k (x :: l) :: transferChunksGo k f (List.drop k (x :: l))).length = _
      rw [List.length_cons, ih (List.drop k (x :: l)) hlen, List.length_drop,
        List.length_cons]
      set n := l.length + 1 with hn
      have hceil : n + k - 1 = (n - 1) + k := by omega
      rw [hceil, Nat.add_div_right _ (by omega : 0 < k)]
      rcases le_or_lt n k with hnk | hnk
      · have h0 : n - k = 0 := by omega
        rw [h0]
        have e1 : (0 + k - 1) / k = 0 := Nat.div_eq_of_lt (by omega)
        have e2 : (n - 1) / k = 0 := Nat.div_eq_of_lt (by omega)
        rw [e1, e2]
      · have e : n - k + k - 1 = n - 1 := by omega
        rw [e]

theorem transferChunksGo_mem_le (k : Nat) (hk : 1 ≤ k) :
    ∀ f (xs c : List α), xs.length ≤ f →
      c ∈ transferChunksGo k f xs → c.length ≤ k := by
  intro f
  induction f with
  | zero =>
    intro xs c h1 hc
    have hx : xs = [] := List.length_eq_zero.mp (Nat.le_zero.mp h1)
    subst hx; simp [transferChunksGo] at hc
  | succ f ih =>
    intro xs c h1 hc
    cases xs with
    | nil => simp [transferChunksGo] at hc
    | cons x l =>
      have hc' : c = List.take k (x :: l)
          ∨ c ∈ transferChunksGo k f (List.drop k (x :: l)) := by
        have hu : transferChunksGo k (f + 1) (x :: l)
            = List.take k (x :: l) :: transferChunksGo k f (List.drop k (x :: l)) := rfl
        rw [hu] at hc
        simpa using hc
      rcases hc' with h | h
      · subst h
        rw [List.length_take]
        exact Nat.min_le_left k _
      · refine ih (List.drop k (x :: l)) c ?_ h
        rw [List.length_drop, List.length_cons]
        simp only [List.length_cons] at h1; omega

theorem map_getD_range (xs : List α) (d : α) :
    (List.range xs.length).map (fun i => xs.getD i d) = xs := by
  induction xs with
  | nil => rfl
  | cons x l ih =>
    rw [List.length_cons, List.range_succ_eq_map, List.map_cons, List.map_map]
    have he : ((fun i => (x :: l).getD i d) ∘ Nat.succ) = fun i => l.getD i d := by
      funext i; rfl
    rw [he, ih]
    rfl

theorem list_all_map (l : List β) (f : β → γ) (p : γ → Bool) :
    (l.map f).all p = l.all (fun x => p (f x)) := by
  induction l with
  | nil => rfl
  | cons x t ih => simp [List.all_cons, ih]

theorem list_any_map (l : List β) (f : β → γ) (p : γ → Bool) :
    (l.map f).any p = l.any (fun x => p (f x)) := by
  induction l with
  | nil => rfl
  | cons x t ih => simp [List.any_cons, ih]

theorem map_const_eq_replicate (l : List β) (b : γ) :
    l.map (fun _ => b) = List.replicate l.length b := by
  induction l with
  | nil => rfl
  | cons x t ih => rw [List.map_cons, List.length_cons, List.replicate_succ, ih]

/-- C1: on the chunking path of the queue sink, a payload with n transfers
and n > chunkSize is split into ceil(n / chunkSize) chunk messages whose
chunkInfo carries chunkIndex 0, 1, ... in order, totalChunks equal to the
chunk count, and originalCount n; every chunk holds at most chunkSize
transfers and the chunk sizes sum to n. -/
theorem kafka_chunking_spec {α : Type} (data : KafkaPayload α) (topic : String)
    (chunkSize : Nat) (hk : 1 ≤ chunkSize) (hn : chunkSize < data.transfers.length) :
    (buildChunkMessages data topic chunkSize).length
        = (data.transfers.length + chunkSize - 1) / chunkSize
    ∧ (buildChunkMessages data topic chunkSize).map
          (fun msg => msg.value.chunkInfo.chunkIndex)
        = List.range ((data.transfers.length + chunkSize - 1) / chunkSize)
    ∧ (buildChunkMessages data topic chunkSize).map
          (fun msg => msg.value.chunkInfo.totalChunks)
        = List.replicate ((data.transfers.length + chunkSize - 1) / chunkSize)
            ((data.transfers.length + chunkSize - 1) / chunkSize)
    ∧ (buildChunkMessages data topic chunkSize).map
          (fun msg => msg.value.chunkInfo.originalCount)
        = List.replicate ((data.transfers.length + chunkSize - 1) / chunkSize)
            data.transfers.length
    ∧ (buildChunkMessages data topic chunkSize).all
          (fun msg => decide (msg.value.transfers.length ≤ chunkSize)) = true
    ∧ ((buildChunkMessages data topic chunkSize).map
          (fun msg => msg.value.transfers.length)).sum
        = data.transfers.length := by
  have hLen : (transferChunks data.transfers chunkSize).length
      = (data.transfers.length + chunkSize - 1) / chunkSize :=
    transferChunksGo_length chunkSize hk data.transfers.length data.transfers le_rfl
  refine ⟨?_, ?_, ?_, ?_, ?_, ?_⟩
  · unfold buildChunkMessages
    rw [List.length_map, List.length_range, hLen]
  · unfold buildChunkMessages
    rw [List.map_map]
    have he : ((fun msg : KafkaMessage α => msg.value.chunkInfo.chunkIndex)
        ∘ chunkMessageAt data topic chunkSize) = fun i => i := by
      funext i; rfl
    rw [he, hLen]
    exact List.map_id _
  · unfold buildChunkMessages
    rw [List.map_map]
    have he : ((fun msg : KafkaMessage α => msg.value.chunkInfo.totalChunks)
        ∘ chunkMessageAt data topic chunkSize)
        = fun _ : Nat => (transferChunks data.transfers chunkSize).length := by
      funext i; rfl
    rw [he, map_const_eq_replicate, List.length_range, hLen]
  · unfold buildChunkMessages
    rw [List.map_map]
    have he : ((fun msg : KafkaMessage α => msg.value.chunkInfo.originalCount)
        ∘ chunkMessageAt data topic chunkSize)
        = fun _ : Nat => data.transfers.length := by
      funext i; rfl
    rw [he, map_const_eq_replicate, List.length_range, hLen]
  · unfold buildChunkMessages
    rw [list_all_map, List.all_eq_true]
    intro i hi
    have hiL : i < (transferChunks data.transfers chunkSize).length :=
      List.mem_range.mp hi
    show decide ((chunkMessageAt data topic chunkSize i).value.transfers.length
        ≤ chunkSize) = true
    rw [decide_eq_true_eq]
    show ((transferChunks data.transfers chunkSize).getD i []).length ≤ chunkSize
    have hmem : (transferChunks data.transfers chunkSize).getD i []
        ∈ transferChunks data.transfers chunkSize := by
      rw [List.getD_eq_get _ _ hiL]
      exact List.get_mem _ _ hiL
    exact transferChunksGo_mem_le chunkSize hk data.transfers.length data.transfers _
      le_rfl hmem
  · unfold buildChunkMessages
    rw [List.map_map]
    have he : ((fun msg : KafkaMessage α => msg.value.transfers.length)
        ∘ chunkMessageAt data topic chunkSize)
        = ((fun c : List α => c.length)
            ∘ fun i => (transferChunks data.transfers chunkSize).getD i []) := by
      funext i; rfl
    rw [he, ← List.map_map, map_getD_range]
    have hjoin : (transferChunks data.transfers chunkSize).join = data.transfers :=
      transferChunksGo_join chunkSize hk data.transfers.length data.transfers le_rfl
    calc ((transferChunks data.transfers chunkSize).map
            (fun c : List α => c.length)).sum
        = (transferChunks data.transfers chunkSize).join.length := by
          rw [List.length_join]
      _ = data.transfers.length := by rw [hjoin]

set_option maxRecDepth 20000 in
/-- Witness for C1: 450 transfers with chunkSize 200 give exactly 3 chunks,
with chunkIndex 0, 1, 2, totalChunks 3, originalCount 450 and chunk sizes
200, 200, 50 summing to 450. -/
theorem kafka_chunking_witness :
    ((buildChunkMessages samplePayload "transfers-topic" 200).length
        = (samplePayload.transfers.length + 200 - 1) / 200
      ∧ (buildChunkMessages samplePayload "transfers-topic" 200).map
            (fun msg => msg.value.chunkInfo.chunkIndex)
          = List.range ((samplePayload.transfers.length + 200 - 1) / 200)
      ∧ (buildChunkMessages samplePayload "transfers-topic" 200).map
            (fun msg => msg.value.chunkInfo.totalChunks)
          = List.replicate ((samplePayload.transfers.length + 200 - 1) / 200)
              ((samplePayload.transfers.length + 200 - 1) / 200)
      ∧ (buildChunkMessages samplePayload "transfers-topic" 200).map
            (fun msg => msg.value.chunkInfo.originalCount)
          = List.replicate ((samplePayload.transfers.length + 200 - 1) / 200)
              samplePayload.transfers.length
      ∧ (buildChunkMessages samplePayload "transfers-topic" 200).all
            (fun msg => decide (msg.value.transfers.length ≤ 200)) = true
      ∧ ((buildChunkMessages samplePayload "transfers-topic" 200).map
            (fun msg => msg.value.transfers.length)).sum
          = samplePayload.transfers.length)
    ∧ (buildChunkMessages samplePayload "transfers-topic" 200).map
          (fun msg => msg.value.transfers.length)
        = [200, 200, 50] :=
  ⟨kafka_chunking_spec samplePayload "transfers-topic" 200 (by decide) (by decide),
   by decide⟩

/-- C10: on the chunking path, every chunk message value copies blockNumber,
timestamp and all remaining payload fields unchanged; only transfers is
replaced, by exactly that chunk of the original transfer list, with chunkInfo
added on top. -/
theorem kafka_chunk_frame_spec {α : Type} (data : KafkaPayload α) (topic : String)
    (chunkSize : Nat) (hk : 1 ≤ chunkSize) (hn : chunkSize < data.transfers.length) :
    (buildChunkMessages data topic chunkSize).map (fun msg => msg.value.blockNumber)
      = List.replicate (buildChunkMessages data topic chunkSize).length
          data.blockNumber
    ∧ (buildChunkMessages data topic chunkSize).map (fun msg => msg.value.timestamp)
      = List.replicate (buildChunkMessages data topic chunkSize).length
          data.timestamp
    ∧ (buildChunkMessages data topic chunkSize).map (fun msg => msg.value.rest)
      = List.replicate (buildChunkMessages data topic chunkSize).length data.rest
    ∧ (buildChunkMessages data topic chunkSize).map (fun msg => msg.value.transfers)
      = transferChunks data.transfers chunkSize := by
  have hB : (buildChunkMessages data topic chunkSize).length
      = (List.range (transferChunks data.transfers chunkSize).length).length := by
    unfold buildChunkMessages
    rw [List.length_map]
  refine ⟨?_, ?_, ?_, ?_⟩
  · rw [hB]
    unfold buildChunkMessages
    rw [List.map_map]
    have he : ((fun msg : KafkaMessage α => msg.value.blockNumber)
        ∘ chunkMessageAt data topic chunkSize) = fun _ : Nat => data.blockNumber := by
      funext i; rfl
    rw [he, map_const_eq_replicate]
  · rw [hB]
    unfold buildChunkMessages
    rw [List.map_map]
    have he : ((fun msg : KafkaMessage α => msg.value.timestamp)
        ∘ chunkMessageAt data topic chunkSize) = fun _ : Nat => data.timestamp := by
      funext i; rfl
    rw [he, map_const_eq_replicate]
  · rw [hB]
    unfold buildChunkMessages
    rw [List.map_map]
    have he : ((fun msg : KafkaMessage α => msg.value.rest)
        ∘ chunkMessageAt data topic chunkSize) = fun _ : Nat => data.rest := by
      funext i; rfl
    rw [he, map_const_eq_replicate]
  · unfold buildChunkMessages
    rw [List.map_map]
    have he : ((fun msg : KafkaMessage α => msg.value.transfers)
        ∘ chunkMessageAt data topic chunkSize)
        = fun i => (transferChunks data.transfers chunkSize).getD i [] := by
      funext i; rfl
    rw [he, map_getD_range]

set_option maxRecDepth 20000 in
/-- Witness for C10: with the 450-transfer payload and chunkSize 200, each of
the three chunk messages repeats blockNumber, timestamp and the remaining
fields, and the transfers fields are exactly the three chunks. -/
theorem kafka_chunk_frame_witness :
    (buildChunkMessages samplePayload "transfers-topic" 200).map
        (fun msg => msg.value.blockNumber)
      = List.replicate (buildChunkMessages samplePayload "transfers-topic" 200).length
          samplePayload.blockNumber
    ∧ (buildChunkMessages samplePayload "transfers-topic" 200).map
        (fun msg => msg.value.timestamp)
      = List.replicate (buildChunkMessages samplePayload "transfers-topic" 200).length
          samplePayload.timestamp
    ∧ (buildChunkMessages samplePayload "transfers-topic" 200).map
        (fun msg => msg.value.rest)
      = List.replicate (buildChunkMessages samplePayload "transfers-topic" 200).length
          samplePayload.rest
    ∧ (buildChunkMessages samplePayload "transfers-topic" 200).map
        (fun msg => msg.value.transfers)
      = transferChunks samplePayload.transfers 200 :=
  kafka_chunk_frame_spec samplePayload "transfers-topic" 200 (by decide) (by decide)

/-! ## Lemmas about the per-chunk retry loop -/

theorem sendChunkAttempts_le (f : Nat → Bool) :
    ∀ fuel s, (sendChunkAttempts f s fuel).2 ≤ fuel := by
  intro fuel
  induction fuel with
  | zero => intro s; exact le_rfl
  | succ n ih =>
    intro s
    cases h : f s with
    | true => simp [sendChunkAttempts, h]
    | false =>
      have := ih (s + 1)
      simp only [sendChunkAttempts, h]
      simp
      omega

theorem sendChunkAttempts_pos (f : Nat → Bool) :
    ∀ fuel s, 1 ≤ fuel → 1 ≤ (sendChunkAttempts f s fuel).2 := by
  intro fuel
  cases fuel with
  | zero => intro s h; exact absurd h (by omega)
  | succ n =>
    intro s _
    cases h : f s with
    | true => simp [sendChunkAttempts, h]
    | false => simp [sendChunkAttempts, h]

theorem sendChunkAttempts_success_any (f : Nat → Bool) :
    ∀ fuel s, (sendChunkAttempts f s fuel).1
      = (List.range fuel).any (fun a => f (s + a)) := by
  intro fuel
  induction fuel with
  | zero => intro s; rfl
  | succ n ih =>
    intro s
    have hrec := ih (s + 1)
    have he : ∀ a, s + 1 + a = s + (a + 1) := fun a => by omega
    cases h : f s with
    | true =>
      have hl : (sendChunkAttempts f s (n + 1)).1 = true := by
        simp [sendChunkAttempts, h]
      rw [hl, List.range_succ_eq_map, List.any_cons]
      simp [h]
    | false =>
      have hl : (sendChunkAttempts f s (n + 1)).1
          = (sendChunkAttempts f (s + 1) n).1 := by
        simp [sendChunkAttempts, h]
      rw [hl, hrec, List.range_succ_eq_map, List.any_cons, list_any_map]
      simp only [he, Nat.add_zero, h, Bool.false_or, Nat.succ_eq_add_one]

/-- C7: in the chunked queue send, each chunk outcome is produced by its own
retry loop on that chunk alone, every chunk is attempted between one and
maxAttempts times regardless of the outcomes of earlier chunks, and the
overall result is success exactly when every chunk eventually succeeded
within its attempt budget. -/
theorem kafka_chunk_retry_spec {α : Type} (data : KafkaPayload α) (topic : String)
    (chunkSize maxAttempts : Nat) (ok : Nat → Nat → Bool)
    (hm : 1 ≤ maxAttempts) :
    (sendToKafkaChunked data topic chunkSize maxAttempts ok).perChunk
        = (List.range (buildChunkMessages data topic chunkSize).length).map
            (fun i => sendChunkWithRetry (ok i) maxAttempts)
    ∧ (sendToKafkaChunked data topic chunkSize maxAttempts ok).perChunk.length
        = (buildChunkMessages data topic chunkSize).length
    ∧ (sendToKafkaChunked data topic chunkSize maxAttempts ok).perChunk.all
        (fun r => decide (1 ≤ r.2 ∧ r.2 ≤ maxAttempts)) = true
    ∧ (sendToKafkaChunked data topic chunkSize maxAttempts ok).success
        = (List.range (buildChunkMessages data topic chunkSize).length).all
            (fun i => (List.range maxAttempts).any (fun a => ok i (a + 1))) := by
  refine ⟨rfl, ?_, ?_, ?_⟩
  · show ((List.range (buildChunkMessages data topic chunkSize).length).map
        (fun i => sendChunkWithRetry (ok i) maxAttempts)).length = _
    rw [List.length_map, List.length_range]
  · show ((List.range (buildChunkMessages data topic chunkSize).length).map
        (fun i => sendChunkWithRetry (ok i) maxAttempts)).all
          (fun r => decide (1 ≤ r.2 ∧ r.2 ≤ maxAttempts)) = true
    simp only [list_all_map]
    rw [List.all_eq_true]
    intro i _
    rw [decide_eq_true_eq]
    exact ⟨sendChunkAttempts_pos (ok i) maxAttempts 1 hm,
      sendChunkAttempts_le (ok i) maxAttempts 1⟩
  · show ((List.range (buildChunkMessages data topic chunkSize).length).map
        (fun i => sendChunkWithRetry (ok i) maxAttempts)).all (fun r => r.1) = _
    simp only [list_all_map]
    have he : (fun i => (sendChunkWithRetry (ok i) maxAttempts).1)
        = fun i => (List.range maxAttempts).any (fun a => ok i (a + 1)) := by
      funext i
      rw [show (sendChunkWithRetry (ok i) maxAttempts).1
          = (sendChunkAttempts (ok i) 1 maxAttempts).1 from rfl]
      rw [sendChunkAttempts_success_any (ok i) maxAttempts 1]
      have he2 : ∀ a, 1 + a = a + 1 := fun a => Nat.add_comm 1 a
      simp only [he2]
    rw [he]

set_option maxRecDepth 20000 in
/-- Witness for C7: three chunks where chunk 0 succeeds on its second
attempt, chunk 1 fails permanently and chunk 2 still gets attempted and
succeeds; the overall result is failure. -/
theorem kafka_chunk_retry_witness :
    (sendToKafkaChunked samplePayload "transfers-topic" 200 3
        (fun i a => decide ((i = 0 ∧ a = 2) ∨ i = 2))).perChunk
      = (List.range (buildChunkMessages samplePayload "transfers-topic" 200).length).map
          (fun i => sendChunkWithRetry
            ((fun i a => decide ((i = 0 ∧ a = 2) ∨ i = 2)) i) 3)
    ∧ (sendToKafkaChunked samplePayload "transfers-topic" 200 3
        (fun i a => decide ((i = 0 ∧ a = 2) ∨ i = 2))).perChunk.length
      = (buildChunkMessages samplePayload "transfers-topic" 200).length
    ∧ (sendToKafkaChunked samplePayload "transfers-topic" 200 3
        (fun i a => decide ((i = 0 ∧ a = 2) ∨ i = 2))).perChunk.all
        (fun r => decide (1 ≤ r.2 ∧ r.2 ≤ 3)) = true
    ∧ (sendToKafkaChunked samplePayload "transfers-topic" 200 3
        (fun i a => decide ((i = 0 ∧ a = 2) ∨ i = 2))).success
      = (List.range (buildChunkMessages samplePayload "transfers-topic" 200).length).all
          (fun i => (List.range 3).any
            (fun a => (fun i a => decide ((i = 0 ∧ a = 2) ∨ i = 2)) i (a + 1))) :=
  kafka_chunk_retry_spec samplePayload "transfers-topic" 200 3
    (fun i a => decide ((i = 0 ∧ a = 2) ∨ i = 2)) (by decide)

/-! ## Lemmas about the WebSocket send loop -/

theorem wsSendLoop_any (o k : Nat → Bool) :
    ∀ fuel s, wsSendLoop o k s fuel
      = (List.range fuel).any (fun a => o (s + a) && k (s + a)) := by
  intro fuel
  induction fuel with
  | zero => intro s; rfl
  | succ n ih =>
    intro s
    have hrec := ih (s + 1)
    have he : ∀ a, s + 1 + a = s + (a + 1) := fun a => by omega
    have hstep : wsSendLoop o k s (n + 1)
        = ((o s && k s) || wsSendLoop o k (s + 1) n) := by
      cases ho : o s <;> cases hk : k s <;> simp [wsSendLoop, ho, hk]
    rw [hstep, hrec, List.range_succ_eq_map, List.any_cons, list_any_map]
    simp only [he, Nat.add_zero, Nat.succ_eq_add_one]

/-- C8: a WebSocket send that exhausts every attempt yields a non-success
result which the per-message hook escalates to a thrown error, whereas the
queue and webhook per-message hooks complete normally on every send result,
non-success included. -/
theorem websocket_exhaust_escalates (isOpen sendOk : Nat → Bool)
    (maxAttempts : Nat) (blockNumber : String)
    (queueResult : ChunkedSendResult) (webhookResult : WebhookSendTrace)
    (hfail : (List.range maxAttempts).all (fun a => !(isOpen a && sendOk a)) = true) :
    (sendToWebSocket isOpen sendOk maxAttempts).success = false
    ∧ websocketMessageHook blockNumber (sendToWebSocket isOpen sendOk maxAttempts)
        = HookOutcome.threw ("WebSocket could not process block: " ++ blockNumber)
    ∧ kafkaMessageHook blockNumber queueResult = HookOutcome.completed
    ∧ webhookMessageHook blockNumber webhookResult = HookOutcome.completed := by
  have hloop : wsSendLoop isOpen sendOk 0 maxAttempts = false := by
    rw [wsSendLoop_any isOpen sendOk maxAttempts 0]
    simp only [Nat.zero_add]
    rw [List.any_eq_false]
    intro a ha
    have h := (List.all_eq_true.mp hfail) a ha
    simp at h
    rcases h with h1 | h1 <;> simp [h1]
  have hres : sendToWebSocket isOpen sendOk maxAttempts
      = { success := false, error := some "WebSocket not connected" } := by
    unfold sendToWebSocket
    rw [hloop]
    rfl
  refine ⟨by rw [hres], ?_, rfl, rfl⟩
  rw [hres]
  rfl

/-- Witness for C8: a connection that is never open exhausts three attempts;
the socket hook throws while the queue and webhook hooks complete. -/
theorem websocket_exhaust_escalates_witness :
    (sendToWebSocket (fun _ => false) (fun _ => true) 3).success = false
    ∧ websocketMessageHook "900100" (sendToWebSocket (fun _ => false) (fun _ => true) 3)
        = HookOutcome.threw ("WebSocket could not process block: " ++ "900100")
    ∧ kafkaMessageHook "900100" { perChunk := [], success := true }
        = HookOutcome.completed
    ∧ webhookMessageHook "900100" { success := true, requests := 1, sleeps := 0 }
        = HookOutcome.completed :=
  websocket_exhaust_escalates (fun _ => false) (fun _ => true) 3 "900100"
    { perChunk := [], success := true } { success := true, requests := 1, sleeps := 0 }
    (by decide)
